import Mathlib

set_option maxRecDepth 8000

/- Shallow embedding of joyodb's parsing and normalization core
   (src/joyodb/model.py).  Strings are modelled as Lean `String` (a structure
   wrapping `List Char`); the Python list/str primitives used by the source are
   re-implemented below as transparent `List Char` functions.  Literal
   regular-expression probes (`re.search` with a pattern made of plain
   characters) are modelled as substring search, which is exactly their
   semantics for the kana/kanji data this program processes; `.` in patterns is
   modelled as "any character" (the source's note/field lines never contain
   newlines, where Python's `.` and `$` have special behaviour). -/

/- ------------------------------------------------------------------ -/
/- Basic string primitives, Python-style, over `List Char`.            -/
/- ------------------------------------------------------------------ -/

/-- Python `str.startswith`: does `l` start with `pat`? -/
def listStartsWith : List Char → List Char → Bool
  | _, [] => true
  | [], _ :: _ => false
  | a :: as, b :: bs => if a = b then listStartsWith as bs else false

/-- Python `pat in l` / `re.search` with a literal pattern: substring search. -/
def subSearch (needle : List Char) : List Char → Bool
  | [] => needle.isEmpty
  | c :: rest => listStartsWith (c :: rest) needle || subSearch needle rest

/-- `re.search` for a literal followed by a one-character class (used for the
godan-inflection probe built by `re.sub('.$', cls, probe)`): some position
matches `lit` and the next character is in `cls`. -/
def classSearch (lit : List Char) (cls : List Char) : List Char → Bool
  | [] => false
  | c :: rest =>
      (listStartsWith (c :: rest) lit &&
        (match (c :: rest).drop lit.length with
         | d :: _ => cls.contains d
         | [] => false)) ||
      classSearch lit cls rest

/-- Python `str.split(sep)` for a one-character separator (keeps empty parts,
returns `[""]` on the empty string, like Python). -/
def splitOnChar (sep : Char) : List Char → List (List Char)
  | [] => [[]]
  | c :: rest =>
      let r := splitOnChar sep rest
      if c = sep then [] :: r
      else
        match r with
        | h :: t => (c :: h) :: t
        | [] => [[c]]

def pySplit (sep : Char) (s : String) : List String :=
  (splitOnChar sep s.data).map String.mk

/-- Python `str.endswith`. -/
def listEndsWith (l pat : List Char) : Bool := listStartsWith l.reverse pat.reverse

def pyEndsWith (s pat : String) : Bool := listEndsWith s.data pat.data

/-- Python `str.replace(pat, '')`: remove all non-overlapping occurrences,
scanning left to right. -/
def removeAllSub (pat : List Char) : List Char → List Char
  | [] => []
  | c :: rest =>
      if h : pat ≠ [] ∧ listStartsWith (c :: rest) pat = true then
        removeAllSub pat ((c :: rest).drop pat.length)
      else
        c :: removeAllSub pat rest
termination_by l => l.length
decreasing_by
  · have hp : 1 ≤ pat.length := by
      cases pat
      · exact absurd rfl h.1
      · simp
    simp only [List.length_drop, List.length_cons]
    omega
  · simp

/-- Split at the first occurrence of `c`: `some (before, after)` when present. -/
def splitAtChar (c : Char) : List Char → Option (List Char × List Char)
  | [] => none
  | a :: rest =>
      if a = c then some ([], rest)
      else
        match splitAtChar c rest with
        | some (pre, post) => some (a :: pre, post)
        | none => none

/-- Python `str.strip()` (the whitespace characters that occur in this data,
including the ideographic space U+3000, which Python treats as whitespace). -/
def isPySpace (c : Char) : Bool :=
  c = ' ' || c = '\t' || c = '\n' || c = '\r' || c = '\x0b' || c = '\x0c' || c = '　'

def pyStrip (s : String) : String :=
  String.mk (((s.data.dropWhile isPySpace).reverse.dropWhile isPySpace).reverse)

/- ------------------------------------------------------------------ -/
/- Unicode script classes used by the source's `\p{...}` patterns.     -/
/- ------------------------------------------------------------------ -/

/-- Script=Han code points (the ranges relevant to this document). -/
def isHan (c : Char) : Bool :=
  let n := c.toNat
  (n = 0x3005) || (n = 0x3007) ||
  (0x3400 ≤ n && n ≤ 0x4DBF) || (0x4E00 ≤ n && n ≤ 0x9FFF) ||
  (0xF900 ≤ n && n ≤ 0xFAD9) || (0x20000 ≤ n && n ≤ 0x2A6DF) ||
  (0x2A700 ≤ n && n ≤ 0x2EBEF) || (0x2F800 ≤ n && n ≤ 0x2FA1D)

/-- Script=Hiragana code points. -/
def isHiragana (c : Char) : Bool :=
  let n := c.toNat
  (0x3041 ≤ n && n ≤ 0x3096) || (0x309D ≤ n && n ≤ 0x309F)

/-- Script=Katakana code points (the prolonged sound mark U+30FC is script
Common, hence excluded, as in the `regex` module). -/
def isKatakanaChar (c : Char) : Bool :=
  let n := c.toNat
  (0x30A1 ≤ n && n ≤ 0x30FA) || (0x30FD ≤ n && n ≤ 0x30FF) ||
  (0x31F0 ≤ n && n ≤ 0x31FF) || (0xFF66 ≤ n && n ≤ 0xFF9D)

/-- `re.match("\p{Katakana}", s)`: does the string start with a katakana
code point?  (No match on the empty string.) -/
def startsKatakana (s : String) : Bool :=
  match s.data with
  | [] => false
  | c :: _ => isKatakanaChar c

/- ------------------------------------------------------------------ -/
/- all_suffixes (model.py lines 219-232).                              -/
/- ------------------------------------------------------------------ -/

/-- `all_suffixes(string)`: all suffixes in decreasing length order.  The
source loop appends `string[-k:]` for `k = len .. 1`, i.e. the drops of the
first `i = 0 .. len-1` characters in that order. -/
def all_suffixes (s : String) : List String :=
  (List.range s.data.length).map (fun i => String.mk (s.data.drop i))

/- ------------------------------------------------------------------ -/
/- Inflection classifier (model.py lines 238-281).                     -/
/- ------------------------------------------------------------------ -/

/-- `GODAN_INFLECTION`: the character class substituted for a godan ending. -/
def GODAN_INFLECTION (c : Char) : Option (List Char) :=
  match c with
  | 'う' => some ['わ', 'え', 'い', 'お', 'う']
  | 'く' => some ['か', 'け', 'き', 'こ', 'く']
  | 'ぐ' => some ['が', 'げ', 'ぎ', 'ご', 'ぐ']
  | 'す' => some ['さ', 'せ', 'し', 'そ', 'す']
  | 'ず' => some ['ざ', 'ぜ', 'じ', 'ぞ', 'ず']
  | 'つ' => some ['た', 'て', 'ち', 'と', 'つ']
  | 'づ' => some ['だ', 'で', 'ぢ', 'ど', 'づ']
  | 'ぬ' => some ['な', 'ね', 'に', 'の', 'ぬ']
  | 'ふ' => some ['は', 'へ', 'ひ', 'ほ', 'ふ']
  | 'ぶ' => some ['ば', 'べ', 'び', 'ぼ', 'ぶ']
  | 'ぷ' => some ['ぱ', 'ぺ', 'ぴ', 'ぽ', 'ぷ']
  | 'む' => some ['ま', 'め', 'み', 'も', 'む']
  | 'る' => some ['ら', 'れ', 'り', 'ろ', 'る']
  | _ => none

/-- `ICHIDAN_BASE_ENDING`: the e/i-row kana that may precede the verbal る. -/
def ICHIDAN_BASE_ENDING : List Char :=
  ['え', 'け', 'げ', 'せ', 'ぜ', 'て', 'で', 'ね', 'へ', 'べ', 'ぺ', 'め', 'れ',
   'い', 'き', 'ぎ', 'し', 'じ', 'ち', 'ぢ', 'に', 'ひ', 'び', 'ぴ', 'み', 'り']

def ICHIDAN_EXCEPTIONS : List String := ["昼", "汁"]

/-- `re.search(ICHIDAN_BASE_ENDING + 'る$', reading)`: the reading ends in an
e/i-row kana immediately followed by る. -/
def ichidanEndCheck (l : List Char) : Bool :=
  match l.reverse with
  | c2 :: c1 :: _ => decide (c2 = 'る') && decide (c1 ∈ ICHIDAN_BASE_ENDING)
  | _ => false

/-- `is_ichidan_verb(kanji, canonical_reading)` (model.py lines 260-281). -/
def is_ichidan_verb (kanji canonical_reading : String) : Bool :=
  if kanji ∈ ICHIDAN_EXCEPTIONS then false
  else ichidanEndCheck canonical_reading.data

/- ------------------------------------------------------------------ -/
/- Okurigana delimiter (model.py lines 284-363).                       -/
/- ------------------------------------------------------------------ -/

/-- The per-suffix probe sequence of `delimit_okurigana`'s loop body: the
plain probe `kanji + suffix`; then, for ichidan verbs, the probe with its
final character dropped (`ok_regex = ok_regex[:-1]` mutates the probe, so the
later godan step sees the shortened probe); then the godan step, which
replaces the probe's last character with its inflection class.  (The source's
final `ok_regex += 'だ'` is dead code — `ok_regex` is rebuilt at the top of
the next iteration — and therefore has no counterpart here.) -/
def suffixProbeHit (kanji canonical_reading suffix ex : String) : Bool :=
  let ok0 := kanji.data ++ suffix.data
  if subSearch ok0 ex.data then true
  else
    let ok1 := if is_ichidan_verb kanji canonical_reading then ok0.dropLast else ok0
    if is_ichidan_verb kanji canonical_reading && subSearch ok1 ex.data then true
    else
      match ok1.getLast? with
      | some lastc =>
          match GODAN_INFLECTION lastc with
          | some cls => classSearch ok1.dropLast cls ex.data
          | none => false
      | none => false

/-- The suffix loop of `delimit_okurigana`: first successful probe wins; the
returned value is `prefix + '.' + suffix` with `prefix = reading[0:-len(suffix)]`. -/
def delimitFrom (kanji canonical_reading : String) : List String → String → String
  | [], _ => canonical_reading
  | suffix :: rest, ex =>
      if suffixProbeHit kanji canonical_reading suffix ex then
        String.mk (canonical_reading.data.take
          (canonical_reading.data.length - suffix.data.length)) ++ "." ++ suffix
      else delimitFrom kanji canonical_reading rest ex

/-- `delimit_okurigana(kanji, canonical_reading, example)` (model.py 284-363). -/
def delimit_okurigana (kanji canonical_reading ex : String) : String :=
  if ex = kanji then canonical_reading
  else delimitFrom kanji canonical_reading (all_suffixes canonical_reading) ex

/- ------------------------------------------------------------------ -/
/- Entity model (model.py classes Kanji, Reading, Example).            -/
/- ------------------------------------------------------------------ -/

/-- `class Example` (model.py 786-810): one item of the 例 column.  The
Python field `example` is named `ex` here (`example` is a Lean keyword). -/
structure Example where
  ex : String
  pos : Option String
  literary : Bool
deriving DecidableEq

/-- `class Reading` (model.py 365-432).  The back-pointer to the owning
Kanji is not a field here: readings live inside their kanji's `readings`
list, and the operations below act on a whole `Kanji` value. -/
structure Reading where
  reading : String
  uncommon : Bool
  kind : String
  variation_of : Option String
  notes : String
  examples : List Example
  alternate_orthographies : List String
deriving DecidableEq

/-- `class Kanji` (model.py 11-100), restricted to the fields the parsing
core reads or writes.  The two dictionaries are association lists in
insertion order (Python dicts preserve insertion order).  The out-of-scope
construction-time fields (old_kanji, glyph-variant selectors and images)
are independent of every operation modelled here and are omitted. -/
structure Kanji where
  kanji : String
  readings : List Reading
  placename_readings : List (String × String)
  compound_readings : List (String × String)
  notes : String
  pending_note : Bool
  joyo_documentation : Option String
deriving DecidableEq

/-- Python `dict[key] = value`: replace in place or append. -/
def dictSet : List (String × String) → String → String → List (String × String)
  | [], k, v => [(k, v)]
  | (k0, v0) :: rest, k, v =>
      if k0 = k then (k, v) :: rest else (k0, v0) :: dictSet rest k v

/-- `Example.__init__` (model.py 787-810): strip part-of-speech markers. -/
def mkExample (ex : String) : Example :=
  if subSearch "〔副〕".data ex.data then
    { ex := String.mk (removeAllSub "〔副〕".data ex.data), pos := some "Adverb", literary := false }
  else if subSearch "〔接〕".data ex.data then
    { ex := String.mk (removeAllSub "〔接〕".data ex.data), pos := some "Conjunction", literary := false }
  else if listStartsWith ex.data "……".data then
    { ex := String.mk (removeAllSub "……".data ex.data), pos := some "Suffix", literary := false }
  else
    { ex := ex, pos := none, literary := false }

/-- `Reading.__init__` (model.py 411-432): strip one leading ideographic
space (marking an uncommon reading), then autodetect the kind when none is
passed: On for a reading starting with a katakana code point, Kun otherwise. -/
def mkReading (reading : String) (variation_of : Option String) (kind : Option String) : Reading :=
  let stripped : String × Bool :=
    if reading.data.head? = some '　' then (String.mk reading.data.tail, true)
    else (reading, false)
  let k : String :=
    match kind with
    | some k0 => k0
    | none => if startsKatakana stripped.1 then "On" else "Kun"
  { reading := stripped.1, uncommon := stripped.2, kind := k,
    variation_of := variation_of, notes := "", examples := [],
    alternate_orthographies := [] }

/-- Fallback reading used to make last-reading access total; the source
relies on the documented precondition that `readings` is non-empty at every
`readings[-1]` access, so this default is never reached in modelled runs. -/
def defaultReading : Reading :=
  { reading := "", uncommon := false, kind := "Kun", variation_of := none,
    notes := "", examples := [], alternate_orthographies := [] }

def lastReading (K : Kanji) : Reading := K.readings.getLastD defaultReading

def setLast (K : Kanji) (f : Reading → Reading) : Kanji :=
  { K with readings := K.readings.dropLast ++ [f (lastReading K)] }

def secondLastReading (K : Kanji) : Option Reading := K.readings.reverse.get? 1

def setSecondLast (K : Kanji) (f : Reading → Reading) : Kanji :=
  match K.readings.reverse with
  | a :: b :: t => { K with readings := (a :: f b :: t).reverse }
  | _ => K

/-- The `self.kanji.readings[-1], self.kanji.readings[-2] = ...` swap. -/
def swapLastTwo (K : Kanji) : Kanji :=
  match K.readings.reverse with
  | a :: b :: t => { K with readings := (b :: a :: t).reverse }
  | _ => K

/-- `Kanji.add_reading` (model.py 113-118): append a freshly constructed
Reading. -/
def kanjiAddReading (K : Kanji) (reading : String) (variation_of : Option String)
    (kind : Option String) : Kanji :=
  { K with readings := K.readings ++ [mkReading reading variation_of kind] }

/- ------------------------------------------------------------------ -/
/- Example/Gloss processor (Reading.add_examples, model.py 434-598).   -/
/- ------------------------------------------------------------------ -/

/-- Modelled from the spec: the character-normalization table
("popularize", defined in the package init file, which is not part of the
parsing core's sources) is an external collaborator that maps the four
non-standard code points of the standard to their popular-use equivalents
(cf. the 𠮟→叱 doctest of `Reading.add_examples`). -/
def popularChar (c : Char) : Char :=
  if c = '𠮟' then '叱'
  else if c = '塡' then '填'
  else if c = '剝' then '剥'
  else if c = '頰' then '頬'
  else c

def popularize (s : String) : String := String.mk (s.data.map popularChar)

/-- `re.sub(r'「|」|などと使う。', '', s)`: one left-to-right pass removing
quotation brackets and the fixed usage phrase. -/
def removeMarks : List Char → List Char
  | [] => []
  | 'な' :: 'ど' :: 'と' :: '使' :: 'う' :: '。' :: rest => removeMarks rest
  | c :: rest => if c = '「' || c = '」' then removeMarks rest else c :: removeMarks rest

/-- `re.match('(.*)（(.*)）$', ex)`: the example ends with `）` and contains
an earlier `（`; the greedy first group runs up to the rightmost `（`.
Returns `(text, gloss)`.  (`.` does not match a newline, so any example
containing one cannot match.) -/
def glossMatch (s : String) : Option (String × String) :=
  if s.data.contains '\n' then none
  else
    match s.data.reverse with
    | '）' :: bodyRev =>
        match splitAtChar '（' bodyRev with
        | some (gRev, m1Rev) => some (String.mk m1Rev.reverse, String.mk gRev.reverse)
        | none => none
    | _ => none

/-- `re.sub(r'っ.*', 'っ', gloss)`: truncate just after the first small tsu. -/
def truncAtTsuAux : List Char → List Char
  | [] => []
  | c :: rest => if c = 'っ' then ['っ'] else c :: truncAtTsuAux rest

def truncAtTsu (s : String) : String := String.mk (truncAtTsuAux s.data)

mutual

/-- `Reading.add_examples(examples_str)` (model.py 434-598), acting on the
last reading of `K` — its only call sites invoke it on `readings[-1]`.
The recursion through `self.kanji.add_examples` is made structural by a
fuel parameter; the wrapper `Kanji.add_examples` below supplies ample fuel. -/
def addExamplesFuel : Nat → Kanji → String → Kanji
  | 0, K, _ => K
  | f + 1, K, examples_str =>
      let s1 := if examples_str.data.contains '「'
                then String.mk (removeMarks examples_str.data) else examples_str
      let s2 := popularize s1
      let exs := (pySplit '，' s2).filter (fun x => x ≠ "")
      let K1 := exampleLoop f K exs
      if (lastReading K1).kind = "Kun" then
        let clean := String.mk ((lastReading K1).reading.data.filter (fun c => c ≠ '.'))
        kunLoop f K1 clean 0
      else K1

/-- The `for example in examples` loop of add_examples: a glossed example
spawns a variant reading (created with `variation_of = self.reading`),
recursively receives the bracket-stripped text as that new reading's own
example, and the last two readings are swapped so the original stays last;
a plain example is appended to the current (last) reading. -/
def exampleLoop : Nat → Kanji → List String → Kanji
  | 0, K, _ => K
  | _ + 1, K, [] => K
  | f + 1, K, ex :: rest =>
      let K2 :=
        match glossMatch ex with
        | some (text, gloss0) =>
            let gloss := if gloss0.data.contains 'っ' then truncAtTsu gloss0 else gloss0
            let Ka := kanjiAddReading K gloss (some (lastReading K).reading) none
            let Kb := addExamplesFuel f Ka text
            swapLastTwo Kb
        | none =>
            setLast K (fun r => { r with examples := r.examples ++ [mkExample ex] })
      exampleLoop f K2 rest

/-- The Kun-reading okurigana loop of add_examples.  It mirrors Python's
`for example_obj in self.examples` (an index walk over a list that the body
may shrink with `remove`, so the element after a removed one is skipped) and
the `clean_reading` variable, which the hardcoded 恐らく case reassigns for
the remainder of the loop. -/
def kunLoop : Nat → Kanji → String → Nat → Kanji
  | 0, K, _, _ => K
  | f + 1, K, clean, i =>
      let self := lastReading K
      if i < self.examples.length then
        -- the loop guard makes the index valid, so the default is never used
        let exObj := self.examples.getD i { ex := "", pos := none, literary := false }
        let new_reading := delimit_okurigana K.kanji clean exObj.ex
        if new_reading.data.contains '.' then
          if clean = self.reading then
            kunLoop f (setLast K (fun r => { r with reading := new_reading })) clean (i + 1)
          else if self.reading ≠ new_reading then
            let K1 := setLast K (fun r => { r with examples := r.examples.eraseIdx i })
            let cv : String × Option String :=
              if exObj.ex = "恐らく" then ("おそらく", some "おそ.れる") else (clean, none)
            let K2 := kanjiAddReading K1 cv.1 cv.2 none
            let K3 := addExamplesFuel f K2 exObj.ex
            let K4 := swapLastTwo K3
            kunLoop f K4 cv.1 (i + 1)
          else kunLoop f K clean (i + 1)
        else kunLoop f K clean (i + 1)
      else K

end

/-- Ample fuel for `addExamplesFuel`: the recursion only descends into
strictly shorter glossed texts or into single already-split example strings,
so a generous linear budget always suffices for the modelled runs. -/
def addExFuel (K : Kanji) (s : String) : Nat :=
  4 * s.data.length + (lastReading K).examples.foldl (fun a e => a + 4 * e.ex.data.length + 8) 0 + 64

/-- `Kanji.add_examples` (model.py 121-124): delegate to the current (last)
reading's `Reading.add_examples`. -/
def Kanji.add_examples (K : Kanji) (s : String) : Kanji :=
  addExamplesFuel (addExFuel K s) K s

/- ------------------------------------------------------------------ -/
/- A small regular-expression engine for the note-grammar patterns.    -/
/- ------------------------------------------------------------------ -/

/-- Pattern syntax for the note-grammar regexes whose match is used only as
a boolean (`re.match` tests whose groups are not consumed).  `.` is a class
excluding the newline, as in Python's default mode. -/
inductive Rgx where
  | eps : Rgx
  | ch : Char → Rgx
  | cls : (Char → Bool) → Rgx
  | seq : Rgx → Rgx → Rgx
  | star : Rgx → Rgx
  | plus : Rgx → Rgx
  | opt : Rgx → Rgx
  | eos : Rgx

def rgxAny : Rgx := Rgx.cls (fun c => c ≠ '\n')

def rgxStr (s : String) : Rgx := s.data.foldr (fun c acc => Rgx.seq (Rgx.ch c) acc) Rgx.eps

def rgxSize : Rgx → Nat
  | Rgx.eps => 1
  | Rgx.ch _ => 1
  | Rgx.cls _ => 1
  | Rgx.seq a b => rgxSize a + rgxSize b + 1
  | Rgx.star a => rgxSize a + 1
  | Rgx.plus a => rgxSize a + 1
  | Rgx.opt a => rgxSize a + 1
  | Rgx.eos => 1

/-- Backtracking matcher in continuation style.  Matching existence is what
is tested, so alternative order is immaterial; star iterations are required
to consume input (equivalent for match existence).  Fuel makes the recursion
structural; `rgxTest` supplies a budget that covers every backtracking chain
of these patterns. -/
def rgxRun : Nat → Rgx → List Char → (List Char → Bool) → Bool
  | 0, _, _, _ => false
  | _ + 1, Rgx.eps, s, k => k s
  | _ + 1, Rgx.ch c, s, k =>
      match s with
      | [] => false
      | a :: t => if a = c then k t else false
  | _ + 1, Rgx.cls p, s, k =>
      match s with
      | [] => false
      | a :: t => p a && k t
  | f + 1, Rgx.seq a b, s, k => rgxRun f a s (fun t => rgxRun f b t k)
  | f + 1, Rgx.star a, s, k =>
      k s || rgxRun f a s (fun t => decide (t.length < s.length) && rgxRun f (Rgx.star a) t k)
  | f + 1, Rgx.plus a, s, k => rgxRun f a s (fun t => rgxRun f (Rgx.star a) t k)
  | f + 1, Rgx.opt a, s, k => k s || rgxRun f a s k
  | _ + 1, Rgx.eos, s, k => s.isEmpty && k s

/-- `re.match(p, s)` as a boolean: match a prefix of `s` (an `eos` inside
the pattern anchors the end). -/
def rgxTest (p : Rgx) (s : List Char) : Bool :=
  rgxRun ((rgxSize p + 2) * (s.length + 2)) p s (fun _ => true)

def rgxSeqList (l : List Rgx) : Rgx := l.foldr Rgx.seq Rgx.eps

/- ------------------------------------------------------------------ -/
/- Note grammar: the reading-scoped rules (Reading.append_to_notes,    -/
/- model.py 652-774).                                                  -/
/- ------------------------------------------------------------------ -/

/-- Python error values raised by the note grammar (and the attribute /
index / iteration errors its partial operations can raise). -/
inductive PyErr where
  | valueError : String → PyErr
  | runtimeError : String → PyErr
  | assertionError : PyErr
  | stopIteration : PyErr
  | indexError : PyErr
  | attributeError : PyErr
  | regexError : PyErr
deriving DecidableEq

/-- `re.match(r'⇔ *(.+)', s)`: the group is everything after the arrow and a
greedy run of spaces; when only spaces follow the arrow, backtracking leaves
a single space as the group. -/
def arrowMatch (s : List Char) : Option (List Char) :=
  match s with
  | '⇔' :: rest =>
      let nsp := rest.dropWhile (fun c => c = ' ')
      let m1 := nsp.takeWhile (fun c => c ≠ '\n')
      if m1 ≠ [] then some m1
      else if nsp.length < rest.length then some [' ']
      else none
  | _ => none

/-- The `assert(re.match('[\p{Han}\p{Hiragana}，]+', m[1]))` condition: the
payload starts with a kanji, hiragana, or full-width comma character. -/
def arrowPayloadOk (m1 : List Char) : Bool :=
  match m1 with
  | [] => false
  | c :: _ => isHan c || isHiragana c || c = '，'

/-- `(「.*」，?)+(など)?は，` (model.py 726). -/
def pat8 : Rgx :=
  Rgx.seq (Rgx.plus (rgxSeqList [Rgx.ch '「', Rgx.star rgxAny, Rgx.ch '」', Rgx.opt (Rgx.ch '，')]))
    (Rgx.seq (Rgx.opt (rgxStr "など")) (rgxStr "は，"))

/-- `(「(.*)」，?)+などと使う。$` (model.py 733). -/
def pat9 : Rgx :=
  Rgx.seq (Rgx.plus (rgxSeqList [Rgx.ch '「', Rgx.star rgxAny, Rgx.ch '」', Rgx.opt (Rgx.ch '，')]))
    (Rgx.seq (rgxStr "などと使う。") Rgx.eos)

/-- `(「[\p{Han}\p{Hiragana}\p{Katakana}]+」,?)+とも(書く)?。` (model.py 754);
note the ASCII comma in this one. -/
def pat11 : Rgx :=
  Rgx.seq (Rgx.plus (rgxSeqList
      [Rgx.ch '「', Rgx.plus (Rgx.cls (fun c => isHan c || isHiragana c || isKatakanaChar c)),
       Rgx.ch '」', Rgx.opt (Rgx.ch ',')]))
    (Rgx.seq (rgxStr "とも") (Rgx.seq (Rgx.opt (rgxStr "書く")) (Rgx.ch '。')))

/-- `「(\p{Han})」.*転用。` (model.py 759). -/
def pat12 : Rgx :=
  rgxSeqList [Rgx.ch '「', Rgx.cls isHan, Rgx.ch '」', Rgx.star rgxAny, rgxStr "転用。"]

/-- `「(.*)」.*の意。` (model.py 764). -/
def pat13 : Rgx :=
  rgxSeqList [Rgx.ch '「', Rgx.star rgxAny, Rgx.ch '」', Rgx.star rgxAny, rgxStr "の意。"]

/-- The six verbatim note lines special-cased by Reading.append_to_notes. -/
def hardcodedNoteLines : List String :=
  ["多く文語の「亡き」で使う。",
   "「三位一体」，「従三位」は，「サン",
   "ミイッタイ」，「ジュサンミ」。",
   "「春雨」，「小雨」，「霧雨」などは，",
   "「はるさめ」，「こさめ」，「きりさめ」。",
   "「憂き」は，文語の連体形。"]

def attachFailMsg : String := "BUG: cannot find where to attach half-note."

/-- The generic (non-hardcoded) rule chain of `Reading.append_to_notes`,
operating on the current (last) reading of `K`. -/
def readingNotesRules (K : Kanji) (s : String) : Except PyErr Kanji :=
  match arrowMatch s.data with
  | some m1 =>
      if arrowPayloadOk m1 then
        Except.ok (setLast K (fun r =>
          { r with notes := s,
                   alternate_orthographies := pySplit '，' (String.mk m1) }))
      else Except.error PyErr.assertionError
  | none =>
      if rgxTest pat8 s.data then
        let K1 := setLast K (fun r => { r with notes := s })
        Except.ok (if pyEndsWith s "。" then K1 else { K1 with pending_note := true })
      else if rgxTest pat9 s.data then
        Except.ok (setLast K (fun r => { r with notes := s }))
      else if K.pending_note && pyEndsWith s "。" then
        if (lastReading K).notes ≠ "" then
          Except.ok { (setLast K (fun r => { r with notes := r.notes ++ s })) with pending_note := false }
        else
          match secondLastReading K with
          | none => Except.error PyErr.indexError
          | some r2 =>
              if r2.notes ≠ "" then
                Except.ok { (setSecondLast K (fun r => { r with notes := r.notes ++ s })) with pending_note := false }
              else Except.error (PyErr.valueError attachFailMsg)
      else if rgxTest pat11 s.data then
        Except.ok (setLast K (fun r => { r with notes := s }))
      else if rgxTest pat12 s.data then
        Except.ok (setLast K (fun r => { r with notes := s }))
      else if rgxTest pat13 s.data then
        Except.ok (setLast K (fun r => { r with notes := s }))
      else if pyEndsWith s "」になる。" then
        Except.ok (setLast K (fun r => { r with notes := s }))
      else Except.error (PyErr.runtimeError s)

/-- Set the literary flag on the example at index `i` (the object returned
by `next(...)`, which is the list element itself). -/
def setLiteraryAt : Nat → List Example → List Example
  | _, [] => []
  | 0, e :: t => { e with literary := true } :: t
  | n + 1, e :: t => e :: setLiteraryAt n t

/-- The 憂き hardcoded case (model.py 712-714): mark the first example
containing 憂き as literary (`next(...)` yields only the first match and
raises StopIteration when there is none) and fall through to the generic
rules. -/
def markUki (K : Kanji) : Except PyErr Kanji :=
  match (lastReading K).examples.findIdx? (fun e => subSearch "憂き".data e.ex.data) with
  | none => Except.error PyErr.stopIteration
  | some i =>
      Except.ok (setLast K (fun r => { r with examples := setLiteraryAt i r.examples }))

/-- `Reading.append_to_notes(string)` (model.py 652-774), with the current
reading being `readings[-1]` (its only call site, Kanji.append_to_notes,
invokes it there).  The hardcoded verbatim fragments come first, then the
generic rule chain; the second half of each hardcoded pair reads
`readings[-2]`, which in Python raises IndexError when missing. -/
def readingAppendToNotes (K : Kanji) (s : String) : Except PyErr Kanji :=
  if s = "多く文語の「亡き」で使う。" then
    let K1 := Kanji.add_examples K "亡き"
    Except.ok (setLast K1 (fun r =>
      let exs := r.examples.map (fun e =>
        if subSearch "亡き".data e.ex.data then { e with literary := true } else e)
      { r with examples := exs, notes := s }))
  else if s = "「三位一体」，「従三位」は，「サン" then
    Except.ok { (setLast K (fun r => { r with notes := s })) with pending_note := true }
  else if s = "ミイッタイ」，「ジュサンミ」。" then
    match secondLastReading K with
    | none => Except.error PyErr.indexError
    | some _ =>
        let K1 := { (setSecondLast K (fun r => { r with notes := r.notes ++ s })) with pending_note := false }
        let K2 := kanjiAddReading K1 "ミ" none none
        let K3 := setLast K2 (fun r => { r with variation_of := some "イ" })
        Except.ok (Kanji.add_examples K3 "三位一体，従三位")
  else if s = "「春雨」，「小雨」，「霧雨」などは，" then
    Except.ok { (setLast K (fun r => { r with notes := s })) with pending_note := true }
  else if s = "「はるさめ」，「こさめ」，「きりさめ」。" then
    let K1 := { (setLast K (fun r => { r with notes := r.notes ++ s })) with pending_note := false }
    let K2 := kanjiAddReading K1 "さめ" none none
    let K3 := setLast K2 (fun r => { r with variation_of := some "あめ" })
    Except.ok (Kanji.add_examples K3 "春雨，小雨，霧雨")
  else if s = "「憂き」は，文語の連体形。" then
    match markUki K with
    | Except.error e => Except.error e
    | Except.ok K1 => readingNotesRules K1 s
  else readingNotesRules K s

/- ------------------------------------------------------------------ -/
/- Note grammar: the kanji-scoped rules (Kanji.append_to_notes,        -/
/- model.py 140-210).                                                  -/
/- ------------------------------------------------------------------ -/

/-- `re.match(r'［\p{Han}］＝許容字体，', s)`. -/
def variantNoteMatch (s : List Char) : Bool :=
  match s with
  | '［' :: h :: '］' :: '＝' :: '許' :: '容' :: '字' :: '体' :: '，' :: _ => isHan h
  | _ => false

/-- `re.match(r'＊［(（付）.*)参照］$', s)`: returns the group (which starts
with （付） and runs to the 参照］ that closes the line). -/
def refMatch (s : List Char) : Option String :=
  match s with
  | '＊' :: '［' :: rest =>
      let n := rest.length
      if n < 6 then none
      else
        let grp := rest.take (n - 3)
        if rest.drop (n - 3) = ['参', '照', '］'] ∧ grp.take 3 = ['（', '付', '）'] ∧
            ¬ grp.contains '\n' then
          some (String.mk grp)
        else none
  | _ => none

/-- The orthography run + gloss core of the compound pattern
`([\p{Han}・\p{Hiragana}]+)（(\p{Hiragana}+)）(tail)`; both runs are greedy
and uniquely determined because `（` and `）` lie outside the classes. -/
def isCompoundOrthChar (c : Char) : Bool := isHan c || c = '・' || isHiragana c

def compoundCore (l : List Char) : Option (String × String × String) :=
  let run := l.takeWhile isCompoundOrthChar
  if run.isEmpty then none
  else
    match l.drop run.length with
    | '（' :: rest2 =>
        let g := rest2.takeWhile isHiragana
        if g.isEmpty then none
        else
          match rest2.drop g.length with
          | '）' :: tail => some (String.mk run, String.mk g, String.mk tail)
          | _ => none
    | _ => none

/-- `re.match(r'(お?)([\p{Han}・\p{Hiragana}]+)（(\p{Hiragana}+)）(.*)$', part)`
with groups: the greedy `お?` is tried first and backtracked when the rest
cannot match.  Returns `(prefix, orthographies-run, gloss, suffix)`. -/
def compoundMatchDollar (s : List Char) : Option (String × String × String × String) :=
  match s with
  | 'お' :: rest =>
      (match compoundCore rest with
       | some (m2, m3, m4) => if m4.data.contains '\n' then none else some ("お", m2, m3, m4)
       | none =>
          match compoundCore s with
          | some (m2, m3, m4) => if m4.data.contains '\n' then none else some ("", m2, m3, m4)
          | none => none)
  | _ =>
      match compoundCore s with
      | some (m2, m3, m4) => if m4.data.contains '\n' then none else some ("", m2, m3, m4)
      | none => none

/-- The same pattern without the final `$`, used as the boolean guard on the
whole line (model.py 188): the `(.*)` tail always matches, so only the
structural part matters. -/
def compoundMatchHead (s : List Char) : Bool :=
  match s with
  | 'お' :: rest => (compoundCore rest).isSome || (compoundCore s).isSome
  | _ => (compoundCore s).isSome

/-- `Kanji.append_to_notes(string)` (model.py 140-210).  Note the source's
`return` sits inside the `for part in parts` loop, so only the first
comma-separated segment of a compound-reading note is ever registered. -/
def Kanji.append_to_notes (K : Kanji) (string : String) : Except PyErr Kanji :=
  let s := pyStrip string
  if variantNoteMatch s.data then
    Except.ok { K with notes := s, pending_note := true }
  else
    match refMatch s.data with
    | some m1 =>
        Except.ok (if K.pending_note then
          { K with notes := K.notes ++ m1, pending_note := false, joyo_documentation := some m1 }
        else { K with notes := m1, joyo_documentation := some m1 })
    | none =>
        if compoundMatchHead s.data then
          let K1 := { K with notes := s }
          match (pySplit '，' s).head? with
          | none => Except.ok K1
          | some part1 =>
              match compoundMatchDollar part1.data with
              | none => Except.error PyErr.attributeError
              | some (pre, orth, gloss, suffix) =>
                  if suffix ≠ "" ∧ subSearch suffix.data "都道府県".data then
                    Except.ok ((pySplit '・' orth).foldl (fun acc ort =>
                      { acc with placename_readings := dictSet acc.placename_readings ort gloss }) K1)
                  else
                    Except.ok ((pySplit '・' orth).foldl (fun acc ort =>
                      { acc with compound_readings :=
                          dictSet acc.compound_readings (pre ++ ort ++ suffix) (pre ++ gloss ++ suffix) }) K1)
        else
          match K.readings.getLast? with
          | none => Except.error PyErr.indexError
          | some _ => readingAppendToNotes K s

/- ------------------------------------------------------------------ -/
/- The okurigana delimiter with the regex-compilation failure mode.    -/
/- ------------------------------------------------------------------ -/

/- `delimit_okurigana` passes the data-dependent probe `kanji + suffix` to
`re.search` as a *pattern* (model.py 343-344), so it is not total over
arbitrary strings: a kanji containing an unmatched parenthesis makes the
regex module raise a compile error.  The layer below refines the plain
embedding above with that failure mode.  Compilation is modelled exactly for
the two families the statements use: a probe free of regex special
characters compiles to the literal itself, and a probe with unbalanced
parentheses fails to compile; probes that compile but contain other special
characters match with regex rather than literal semantics, and no statement
below depends on their match result. -/

/-- The characters carrying special meaning in a regular expression; a
pattern free of them is compiled as the literal string itself. -/
def regexSpecialChars : List Char :=
  ['(', ')', '[', ']', '?', '*', '+', '|', '^', '$', '.', '\\']

def regexLiteralOk (pat : List Char) : Bool :=
  pat.all (fun ch => !(regexSpecialChars.contains ch))

/-- Parenthesis balance of a pattern: an unmatched '(' or ')' raises
re.error ("missing ), unterminated subpattern" / "unbalanced parenthesis"). -/
def parenBalancedAux : List Char → Nat → Bool
  | [], d => decide (d = 0)
  | c :: t, d =>
      if c = '(' then parenBalancedAux t (d + 1)
      else if c = ')' then
        match d with
        | 0 => false
        | d2 + 1 => parenBalancedAux t d2
      else parenBalancedAux t d

def regexCompileOk (pat : List Char) : Bool := parenBalancedAux pat 0

/-- `re.search(pat, hay)` with a data-dependent pattern: the compile failure
is tracked, and a compiling pattern is searched (literally — exact whenever
the pattern is free of special characters). -/
def reSearchChecked (pat hay : List Char) : Except PyErr Bool :=
  if regexCompileOk pat then Except.ok (subSearch pat hay)
  else Except.error PyErr.regexError

/-- The per-suffix probe sequence of `delimit_okurigana` with the compile
failure mode (cf. `suffixProbeHit`). -/
def suffixProbeHitChecked (kanji canonical_reading suffix ex : String) :
    Except PyErr Bool :=
  let ok0 := kanji.data ++ suffix.data
  match reSearchChecked ok0 ex.data with
  | Except.error e => Except.error e
  | Except.ok true => Except.ok true
  | Except.ok false =>
      let ok1 := if is_ichidan_verb kanji canonical_reading then ok0.dropLast else ok0
      match (if is_ichidan_verb kanji canonical_reading
             then reSearchChecked ok1 ex.data else Except.ok false) with
      | Except.error e => Except.error e
      | Except.ok true => Except.ok true
      | Except.ok false =>
          match ok1.getLast? with
          | some lastc =>
              match GODAN_INFLECTION lastc with
              | some cls =>
                  if regexCompileOk ok1.dropLast
                  then Except.ok (classSearch ok1.dropLast cls ex.data)
                  else Except.error PyErr.regexError
              | none => Except.ok false
          | none => Except.ok false

def delimitFromChecked (kanji canonical_reading : String) :
    List String → String → Except PyErr String
  | [], _ => Except.ok canonical_reading
  | suffix :: rest, ex =>
      match suffixProbeHitChecked kanji canonical_reading suffix ex with
      | Except.error e => Except.error e
      | Except.ok true =>
          Except.ok (String.mk (canonical_reading.data.take
            (canonical_reading.data.length - suffix.data.length)) ++ "." ++ suffix)
      | Except.ok false => delimitFromChecked kanji canonical_reading rest ex

/-- `delimit_okurigana` with the regex-compilation failure mode. -/
def delimit_okurigana_checked (kanji canonical_reading ex : String) :
    Except PyErr String :=
  if ex = kanji then Except.ok canonical_reading
  else delimitFromChecked kanji canonical_reading (all_suffixes canonical_reading) ex

/- ------------------------------------------------------------------ -/
/- Helper lemmas.                                                      -/
/- ------------------------------------------------------------------ -/

lemma strMk_data (s : String) : String.mk s.data = s := rfl

lemma string_ne_empty_data {s : String} (h : s ≠ "") : s.data ≠ [] := by
  intro hd
  apply h
  cases s
  simp only at hd
  rw [hd]

lemma exists_getLast : ∀ (l : List Char), l ≠ [] → ∃ a, l.getLast? = some a := by
  intro l
  induction l with
  | nil => intro h; exact absurd rfl h
  | cons a t ih =>
      intro _
      cases t with
      | nil => exact ⟨a, rfl⟩
      | cons b t2 =>
          obtain ⟨c, hc⟩ := ih (by simp)
          exact ⟨c, by rw [List.getLast?_cons_cons]; exact hc⟩

lemma drop_pred_singleton : ∀ (l : List Char) (a : Char),
    l.getLast? = some a → l.drop (l.length - 1) = [a] := by
  intro l
  induction l with
  | nil => intro a h; simp at h
  | cons x t ih =>
      intro a h
      cases t with
      | nil => simp at h; simp [h]
      | cons y t2 =>
          rw [List.getLast?_cons_cons] at h
          have := ih a h
          simpa using this

lemma ichidanEndCheck_iff (l : List Char) :
    ichidanEndCheck l = true ↔
      ∃ l0 c, l = l0 ++ [c, 'る'] ∧ c ∈ ICHIDAN_BASE_ENDING := by
  constructor
  · intro h
    unfold ichidanEndCheck at h
    match h0 : l.reverse with
    | [] => rw [h0] at h; simp at h
    | [c2] => rw [h0] at h; simp at h
    | c2 :: c1 :: t =>
        rw [h0] at h
        simp only [Bool.and_eq_true, decide_eq_true_eq] at h
        refine ⟨t.reverse, c1, ?_, h.2⟩
        have : l = l.reverse.reverse := (List.reverse_reverse l).symm
        rw [this, h0, h.1]
        simp
  · rintro ⟨l0, c, rfl, hc⟩
    have hrev : (l0 ++ [c, 'る']).reverse = 'る' :: c :: l0.reverse := by simp
    unfold ichidanEndCheck
    rw [hrev]
    simp [hc]

lemma delimitFrom_no_hit (kanji r ex : String) :
    ∀ l : List String, (∀ s0 ∈ l, suffixProbeHit kanji r s0 ex = false) →
      delimitFrom kanji r l ex = r := by
  intro l
  induction l with
  | nil => intro _; rfl
  | cons a t ih =>
      intro h
      have ha := h a (by simp)
      rw [delimitFrom, if_neg (by simp [ha])]
      exact ih (fun s0 hs => h s0 (by simp [hs]))

lemma delimitFrom_first_hit (kanji r ex : String) :
    ∀ (l1 : List String) (suf : String) (l2 : List String),
      (∀ s0 ∈ l1, suffixProbeHit kanji r s0 ex = false) →
      suffixProbeHit kanji r suf ex = true →
      delimitFrom kanji r (l1 ++ suf :: l2) ex =
        String.mk (r.data.take (r.data.length - suf.data.length)) ++ "." ++ suf := by
  intro l1
  induction l1 with
  | nil =>
      intro suf l2 _ hhit
      rw [List.nil_append, delimitFrom, if_pos hhit]
  | cons a t ih =>
      intro suf l2 h1 hhit
      have ha := h1 a (by simp)
      rw [List.cons_append, delimitFrom, if_neg (by simp [ha])]
      exact ih suf l2 (fun s0 hs => h1 s0 (by simp [hs])) hhit

lemma secondLast_of_two_le {K : Kanji} (h : 2 ≤ K.readings.length) :
    ∃ r2, secondLastReading K = some r2 := by
  unfold secondLastReading
  have hlen : 1 < K.readings.reverse.length := by simpa using h
  exact ⟨K.readings.reverse.get ⟨1, hlen⟩, List.get?_eq_get hlen⟩

lemma literal_not_mem {l : List Char} (h : regexLiteralOk l = true) {c : Char}
    (hc : regexSpecialChars.contains c = true) : c ∉ l := by
  intro hmem
  have h2 := (List.all_eq_true.mp h) c hmem
  rw [hc] at h2
  simp at h2

lemma parenBalancedAux_no_paren (l : List Char) :
    ∀ d : Nat, '(' ∉ l → ')' ∉ l → parenBalancedAux l d = decide (d = 0) := by
  induction l with
  | nil => intro d _ _; rfl
  | cons c t ih =>
      intro d h1 h2
      have hc1 : c ≠ '(' := fun hx => h1 (by rw [hx]; exact List.mem_cons_self _ _)
      have hc2 : c ≠ ')' := fun hx => h2 (by rw [hx]; exact List.mem_cons_self _ _)
      rw [parenBalancedAux.eq_def]
      simp only [if_neg hc1, if_neg hc2]
      exact ih d (fun hx => h1 (List.mem_cons_of_mem _ hx))
        (fun hx => h2 (List.mem_cons_of_mem _ hx))

lemma regexCompileOk_of_literal {l : List Char} (h : regexLiteralOk l = true) :
    regexCompileOk l = true := by
  unfold regexCompileOk
  rw [parenBalancedAux_no_paren l 0 (literal_not_mem h (by decide)) (literal_not_mem h (by decide))]
  rfl

lemma regexLiteralOk_append {a b : List Char} (ha : regexLiteralOk a = true)
    (hb : regexLiteralOk b = true) : regexLiteralOk (a ++ b) = true := by
  unfold regexLiteralOk at *
  rw [List.all_append, ha, hb]
  rfl

lemma regexLiteralOk_dropLast {a : List Char} (ha : regexLiteralOk a = true) :
    regexLiteralOk a.dropLast = true := by
  unfold regexLiteralOk at *
  rw [List.all_eq_true] at *
  exact fun x hx => ha x (List.mem_of_mem_dropLast hx)

lemma regexLiteralOk_drop {a : List Char} (n : Nat) (ha : regexLiteralOk a = true) :
    regexLiteralOk (a.drop n) = true := by
  unfold regexLiteralOk at *
  rw [List.all_eq_true] at *
  exact fun x hx => ha x (List.drop_subset n a hx)

lemma reSearchChecked_literal {pat : List Char} (hay : List Char)
    (h : regexLiteralOk pat = true) :
    reSearchChecked pat hay = Except.ok (subSearch pat hay) := by
  unfold reSearchChecked
  rw [if_pos (regexCompileOk_of_literal h)]

lemma suffixProbeHitChecked_literal (kanji r suffix ex : String)
    (hk : regexLiteralOk kanji.data = true) (hs : regexLiteralOk suffix.data = true) :
    suffixProbeHitChecked kanji r suffix ex = Except.ok (suffixProbeHit kanji r suffix ex) := by
  have hok0 : regexLiteralOk (kanji.data ++ suffix.data) = true := regexLiteralOk_append hk hs
  simp only [suffixProbeHitChecked, suffixProbeHit,
    reSearchChecked_literal ex.data hok0]
  cases hsub : subSearch (kanji.data ++ suffix.data) ex.data with
  | true => simp [hsub]
  | false =>
      simp only [hsub, if_false, Bool.false_eq_true]
      cases hic : is_ichidan_verb kanji r with
      | true =>
          have hok1 : regexLiteralOk (kanji.data ++ suffix.data).dropLast = true :=
            regexLiteralOk_dropLast hok0
          simp only [hic, if_true, Bool.true_and, reSearchChecked_literal ex.data hok1]
          cases hsub2 : subSearch (kanji.data ++ suffix.data).dropLast ex.data with
          | true => simp
          | false =>
              simp only [Bool.false_eq_true, if_false]
              cases hlast : (kanji.data ++ suffix.data).dropLast.getLast? with
              | none => simp [hlast]
              | some lastc =>
                  cases hgd : GODAN_INFLECTION lastc with
                  | none => simp [hlast, hgd]
                  | some cls =>
                      have hok2 : regexCompileOk (kanji.data ++ suffix.data).dropLast.dropLast = true :=
                        regexCompileOk_of_literal (regexLiteralOk_dropLast hok1)
                      simp [hlast, hgd, hok2]
      | false =>
          simp only [hic, if_false, Bool.false_and]
          cases hlast : (kanji.data ++ suffix.data).getLast? with
          | none => simp [hlast]
          | some lastc =>
              cases hgd : GODAN_INFLECTION lastc with
              | none => simp [hlast, hgd]
              | some cls =>
                  have hok2 : regexCompileOk (kanji.data ++ suffix.data).dropLast = true :=
                    regexCompileOk_of_literal (regexLiteralOk_dropLast hok0)
                  simp [hlast, hgd, hok2]

lemma delimitFromChecked_literal (kanji r ex : String)
    (hk : regexLiteralOk kanji.data = true) :
    ∀ l : List String, (∀ s0 ∈ l, regexLiteralOk s0.data = true) →
      delimitFromChecked kanji r l ex = Except.ok (delimitFrom kanji r l ex) := by
  intro l
  induction l with
  | nil => intro _; rfl
  | cons a t ih =>
      intro h
      have ha := h a (by simp)
      rw [delimitFromChecked, delimitFrom,
        suffixProbeHitChecked_literal kanji r a ex hk ha]
      cases hhit : suffixProbeHit kanji r a ex with
      | true => simp [hhit]
      | false =>
          simp only [Bool.false_eq_true, if_false]
          exact ih (fun s0 hs => h s0 (by simp [hs]))

lemma all_suffixes_literal {r : String} (h : regexLiteralOk r.data = true) :
    ∀ s0 ∈ all_suffixes r, regexLiteralOk s0.data = true := by
  intro s0 hs
  rw [all_suffixes, List.mem_map] at hs
  obtain ⟨i, _, rfl⟩ := hs
  exact regexLiteralOk_drop i h

/- ------------------------------------------------------------------ -/
/- Claim theorems.                                                     -/
/- ------------------------------------------------------------------ -/

/-- C5: `isIchidanVerb` returns false for every kanji in the fixed exception
set {昼, 汁} regardless of the reading, and otherwise returns true exactly
when the reading ends in one of the fixed e/i-row kana characters immediately
followed by る; in particular `isIchidanVerb('食', 'たべる')` is true,
`isIchidanVerb('飲', 'のむ')` is false, and `isIchidanVerb('昼', 'ひる')` is
false. -/
theorem c5_is_ichidan_verb :
    (∀ r : String, is_ichidan_verb "昼" r = false) ∧
    (∀ r : String, is_ichidan_verb "汁" r = false) ∧
    (∀ kanji r : String, is_ichidan_verb kanji r = true ↔
      (kanji ∉ ICHIDAN_EXCEPTIONS ∧
        ∃ l c, r.data = l ++ [c, 'る'] ∧ c ∈ ICHIDAN_BASE_ENDING)) ∧
    is_ichidan_verb "食" "たべる" = true ∧
    is_ichidan_verb "飲" "のむ" = false ∧
    is_ichidan_verb "昼" "ひる" = false := by
  refine ⟨?_, ?_, ?_, by decide, by decide, by decide⟩
  · intro r
    simp [is_ichidan_verb, ICHIDAN_EXCEPTIONS]
  · intro r
    simp [is_ichidan_verb, ICHIDAN_EXCEPTIONS]
  · intro kanji r
    by_cases hk : kanji ∈ ICHIDAN_EXCEPTIONS
    · simp [is_ichidan_verb, hk]
    · simp only [is_ichidan_verb, if_neg hk]
      rw [ichidanEndCheck_iff]
      simp [hk]

/-- C6: `delimitOkurigana` tries the suffixes of the canonical reading
longest-first (the order produced by `all_suffixes`), returning the split at
the first suffix whose probe sequence (plain substring probe, then the
ichidan dropped-る probe, then the godan inflection-class probe) succeeds;
in particular the three quoted evaluations hold, including the na-adjective
example with the trailing copula. -/
theorem c6_delimit_okurigana :
    delimit_okurigana "頼" "たよる" "頼る" = "たよ.る" ∧
    delimit_okurigana "頼" "たよる" "頼り" = "たよ.る" ∧
    delimit_okurigana "静" "しずか" "静かだ" = "しず.か" ∧
    (∀ (kanji r ex : String) (l1 : List String) (suf : String) (l2 : List String),
      ex ≠ kanji →
      all_suffixes r = l1 ++ suf :: l2 →
      (∀ s0 ∈ l1, suffixProbeHit kanji r s0 ex = false) →
      suffixProbeHit kanji r suf ex = true →
      delimit_okurigana kanji r ex =
        String.mk (r.data.take (r.data.length - suf.data.length)) ++ "." ++ suf) := by
  refine ⟨by decide, by decide, by decide, ?_⟩
  intro kanji r ex l1 suf l2 hne hdecomp h1 h2
  unfold delimit_okurigana
  rw [if_neg hne, hdecomp]
  exact delimitFrom_first_hit kanji r ex l1 suf l2 h1 h2

theorem c6_witness :
    ("頼り" : String) ≠ "頼" ∧
    all_suffixes "たよる" = ["たよる", "よる", "る"] ∧
    (∀ s0 ∈ (["たよる", "よる"] : List String),
      suffixProbeHit "頼" "たよる" s0 "頼り" = false) ∧
    suffixProbeHit "頼" "たよる" "る" "頼り" = true ∧
    delimit_okurigana "頼" "たよる" "頼り" =
      String.mk ("たよる".data.take ("たよる".data.length - "る".data.length)) ++ "." ++ "る" :=
  ⟨by decide, by decide, by decide, by decide,
   c6_delimit_okurigana.2.2.2 "頼" "たよる" "頼り" ["たよる", "よる"] "る" []
     (by decide) (by decide) (by decide) (by decide)⟩

/-- C7: when the example equals the bare kanji, `delimitOkurigana` returns
the canonical reading unchanged for every kanji and every reading (including
already-delimited readings): the exact-match short-circuit fires before any
split is attempted. -/
theorem c7_delimit_bare_kanji (kanji canonical_reading : String) :
    delimit_okurigana kanji canonical_reading kanji = canonical_reading := by
  unfold delimit_okurigana
  rw [if_pos rfl]

/-- C8: for every non-empty string, `allSuffixes` returns exactly `len(S)`
strings, the first being `S` itself and the last the final character, with
strictly decreasing lengths (longest first), and every element a true suffix
of `S`. -/
theorem c8_all_suffixes (s : String) (h : s ≠ "") :
    (all_suffixes s).length = s.length ∧
    (all_suffixes s).head? = some s ∧
    (∃ c, s.data.getLast? = some c ∧
      (all_suffixes s).getLast? = some (String.mk [c])) ∧
    (all_suffixes s).Pairwise (fun a b => b.data.length < a.data.length) ∧
    (∀ t ∈ all_suffixes s, t.data <:+ s.data) := by
  have hd : s.data ≠ [] := string_ne_empty_data h
  obtain ⟨m, hm⟩ : ∃ m, s.data.length = m + 1 := by
    cases hlen : s.data.length with
    | zero => exact absurd (List.length_eq_zero.mp hlen) hd
    | succ m => exact ⟨m, rfl⟩
  refine ⟨?_, ?_, ?_, ?_, ?_⟩
  · rw [all_suffixes]
    rw [List.length_map, List.length_range]
    rfl
  · rw [all_suffixes, hm, List.range_succ_eq_map]
    simp [strMk_data]
  · obtain ⟨c, hc⟩ := exists_getLast s.data hd
    refine ⟨c, hc, ?_⟩
    rw [all_suffixes, hm, List.range_succ, List.map_append, List.map_cons, List.map_nil]
    rw [List.getLast?_concat]
    have : s.data.drop m = [c] := by
      have := drop_pred_singleton s.data c hc
      rwa [hm, Nat.add_sub_cancel] at this
    simp [this]
  · rw [all_suffixes, List.pairwise_map]
    have hbase : (List.range s.data.length).Pairwise (· < ·) := List.pairwise_lt_range _
    refine hbase.imp_of_mem ?_
    intro a b ha hb hab
    have hb2 : b < s.data.length := List.mem_range.mp hb
    simp only [List.length_drop]
    omega
  · intro t ht
    rw [all_suffixes, List.mem_map] at ht
    obtain ⟨i, _, rfl⟩ := ht
    exact List.drop_suffix i s.data

theorem c8_witness :
    ("たよる" : String) ≠ "" ∧
    ((all_suffixes "たよる").length = ("たよる" : String).length ∧
     (all_suffixes "たよる").head? = some "たよる" ∧
     (∃ c, "たよる".data.getLast? = some c ∧
       (all_suffixes "たよる").getLast? = some (String.mk [c])) ∧
     (all_suffixes "たよる").Pairwise (fun a b => b.data.length < a.data.length) ∧
     (∀ t ∈ all_suffixes "たよる", t.data <:+ "たよる".data)) :=
  ⟨by decide, c8_all_suffixes "たよる" (by decide)⟩

/-- C9 counterexample: the source is not total over arbitrary strings —
`delimit_okurigana` passes `kanji + suffix` to `re.search` as a pattern
(model.py 343-344), so on the kanji `(` (an unmatched parenthesis, hence a
pattern that does not compile) the call raises a regex error instead of
returning a result; the checked embedding reproduces this. -/
theorem c9_counterexample :
    delimit_okurigana_checked "(" "あ" "x" = Except.error PyErr.regexError ∧
    regexLiteralOk "(".data = false := by
  refine ⟨by rfl, by rfl⟩

/-- C9 (amended): `isIchidanVerb` is total, deterministic and
side-effect-free for all string inputs (its pattern is fixed), and
`delimitOkurigana` is deterministic and side-effect-free (both are embedded
as pure functions of their string arguments, touching no entity state); the
latter is total on every input triple whose kanji and canonical reading are
free of regex special characters — which covers all document text — where
the checked embedding agrees with the plain one, and it falls back to
returning the canonical reading unchanged when no suffix search succeeds;
it is not total on arbitrary strings (see the counterexample). -/
theorem c9_total_on_literal_probes :
    (∀ kanji r : String,
      is_ichidan_verb kanji r = false ∨ is_ichidan_verb kanji r = true) ∧
    (∀ kanji r ex : String,
      regexLiteralOk kanji.data = true → regexLiteralOk r.data = true →
      delimit_okurigana_checked kanji r ex = Except.ok (delimit_okurigana kanji r ex)) ∧
    (∀ kanji r ex : String,
      (∀ s0 ∈ all_suffixes r, suffixProbeHit kanji r s0 ex = false) →
      delimit_okurigana kanji r ex = r) := by
  refine ⟨?_, ?_, ?_⟩
  · intro kanji r
    cases h : is_ichidan_verb kanji r
    · exact Or.inl rfl
    · exact Or.inr rfl
  · intro kanji r ex hk hr
    unfold delimit_okurigana_checked delimit_okurigana
    by_cases hek : ex = kanji
    · rw [if_pos hek, if_pos hek]
    · rw [if_neg hek, if_neg hek]
      exact delimitFromChecked_literal kanji r ex hk (all_suffixes r) (all_suffixes_literal hr)
  · intro kanji r ex hno
    unfold delimit_okurigana
    by_cases hek : ex = kanji
    · rw [if_pos hek]
    · rw [if_neg hek]
      exact delimitFrom_no_hit kanji r ex (all_suffixes r) hno

theorem c9_witness :
    regexLiteralOk "昼".data = true ∧ regexLiteralOk "ひる".data = true ∧
    (∀ s0 ∈ all_suffixes "ひる", suffixProbeHit "昼" "ひる" s0 "真昼" = false) ∧
    delimit_okurigana_checked "昼" "ひる" "真昼" =
      Except.ok (delimit_okurigana "昼" "ひる" "真昼") ∧
    delimit_okurigana "昼" "ひる" "真昼" = "ひる" :=
  ⟨by decide, by decide, by decide,
   c9_total_on_literal_probes.2.1 "昼" "ひる" "真昼" (by decide) (by decide),
   c9_total_on_literal_probes.2.2 "昼" "ひる" "真昼" (by decide)⟩

/-- C10: a Reading constructed without an explicit kind strips one leading
ideographic space (marking the reading uncommon) and otherwise stores the
raw reading with `uncommon = false`; the kind is then autodetected as On
exactly when the stored reading begins with a katakana code point and Kun
otherwise — no third kind is ever assigned by the constructor. -/
theorem c10_reading_init (reading : String) (vo : Option String)
    (h : reading ≠ "") :
    ((reading.data.head? = some '　') →
      ((mkReading reading vo none).reading = String.mk reading.data.tail ∧
       (mkReading reading vo none).uncommon = true)) ∧
    ((reading.data.head? ≠ some '　') →
      ((mkReading reading vo none).reading = reading ∧
       (mkReading reading vo none).uncommon = false)) ∧
    ((mkReading reading vo none).kind = "On" ↔
      startsKatakana (mkReading reading vo none).reading = true) ∧
    ((mkReading reading vo none).kind = "On" ∨
     (mkReading reading vo none).kind = "Kun") := by
  by_cases hh : reading.data.head? = some '　'
  · refine ⟨fun _ => ?_, fun hc => absurd hh hc, ?_, ?_⟩
    · constructor
      · simp [mkReading, hh]
      · simp [mkReading, hh]
    · by_cases hk : startsKatakana (String.mk reading.data.tail) = true
      · simp [mkReading, hh, hk]
      · simp [mkReading, hh, hk]
    · by_cases hk : startsKatakana (String.mk reading.data.tail) = true
      · simp [mkReading, hh, hk]
      · simp [mkReading, hh, hk]
  · refine ⟨fun hc => absurd hc hh, fun _ => ?_, ?_, ?_⟩
    · constructor
      · simp [mkReading, hh]
      · simp [mkReading, hh]
    · by_cases hk : startsKatakana reading = true
      · simp [mkReading, hh, hk]
      · simp [mkReading, hh, hk]
    · by_cases hk : startsKatakana reading = true
      · simp [mkReading, hh, hk]
      · simp [mkReading, hh, hk]

theorem c10_witness :
    ("　ジョウ" : String) ≠ "" ∧
    (mkReading "　ジョウ" none none).reading = "ジョウ" ∧
    (mkReading "　ジョウ" none none).uncommon = true ∧
    (mkReading "　ジョウ" none none).kind = "On" ∧
    ("　ジョウ".data.head? = some '　' →
      ((mkReading "　ジョウ" none none).reading = String.mk "　ジョウ".data.tail ∧
       (mkReading "　ジョウ" none none).uncommon = true)) :=
  ⟨by decide, by decide, by decide, by decide,
   (c10_reading_init "　ジョウ" none (by decide)).1⟩

/-- The kanji states used by the scenario theorems below: a fresh entry with
a single autodetected reading, as produced by the table feeder before the
examples column arrives. -/
def kanjiWithReading (c r : String) : Kanji :=
  { kanji := c, readings := [mkReading r none none], placename_readings := [],
    compound_readings := [], notes := "", pending_note := false,
    joyo_documentation := none }

def c1Kanji : Kanji :=
  { kanji := "茨", readings := [], placename_readings := [],
    compound_readings := [], notes := "", pending_note := false,
    joyo_documentation := none }

/-- C1 (code bug witness): on the two-segment administrative-suffix note
三重（みえ）県，滋賀（しが）県, `Kanji.append_to_notes` registers only the
first segment 三重→みえ into `placename_readings` — the source's `return`
sits inside the `for part in parts` loop (model.py 207), so the second
matching segment 滋賀（しが）県 is dropped, contradicting the claim that
every comma-separated segment is registered. -/
theorem c1_only_first_segment_registered :
    Kanji.append_to_notes c1Kanji "三重（みえ）県，滋賀（しが）県" =
      Except.ok { c1Kanji with
        notes := "三重（みえ）県，滋賀（しが）県",
        placename_readings := [("三重", "みえ")] } := by
  rfl

def c3Kanji : Kanji := kanjiWithReading "三" "み"

/-- C3: adding the examples string 三日（みっか） to the reading み (the
last reading of its kanji) creates exactly one new Reading whose kana is
みっ (the gloss trimmed at the first small-tsu), marked variant-of み,
carrying the bracket-stripped text 三日 as its own example, inserted
immediately before the triggering reading, which remains last and
unchanged. -/
theorem c3_gloss_promotion :
    Kanji.add_examples c3Kanji "三日（みっか）" =
      { c3Kanji with readings :=
          [{ reading := "みっ", uncommon := false, kind := "Kun",
             variation_of := some "み", notes := "",
             examples := [{ ex := "三日", pos := none, literary := false }],
             alternate_orthographies := [] },
           mkReading "み" none none] } := by
  rfl

/- ------------------------------------------------------------------ -/
/- C4: the reading-scoped error conditions.                            -/
/- ------------------------------------------------------------------ -/

/-- The ⇔ rule matched but its payload fails the asserted character-class
check (model.py 720): an assertion error beyond the two situations the
claim lists. -/
def arrowAssertViolationB (s : String) : Bool :=
  match arrowMatch s.data with
  | some m1 => ! arrowPayloadOk m1
  | none => false

/-- The broken-continuation situation: no earlier generic rule matched, the
pending flag is set, the line closes a sentence, and neither the current
reading's notes nor the second-to-last reading's notes is non-empty. -/
def brokenContinuationB (K : Kanji) (s : String) : Bool :=
  (arrowMatch s.data).isNone && ! rgxTest pat8 s.data && ! rgxTest pat9 s.data &&
  K.pending_note && pyEndsWith s "。" &&
  decide ((lastReading K).notes = "") &&
  (match secondLastReading K with
   | some r2 => decide (r2.notes = "")
   | none => false)

/-- No reading-scoped rule matches the line. -/
def noReadingRuleB (K : Kanji) (s : String) : Bool :=
  (arrowMatch s.data).isNone && ! rgxTest pat8 s.data && ! rgxTest pat9 s.data &&
  ! (K.pending_note && pyEndsWith s "。") &&
  ! rgxTest pat11 s.data && ! rgxTest pat12 s.data && ! rgxTest pat13 s.data &&
  ! pyEndsWith s "」になる。"

def c4Kanji : Kanji :=
  { kanji := "嫌", readings := [mkReading "ケン" none none, mkReading "いや" none none],
    placename_readings := [], compound_readings := [], notes := "",
    pending_note := false, joyo_documentation := none }

/-- C4 counterexample: on the line ⇔！ the ⇔ rule does match (so situation
(b), "no rule matches", does not apply) and the pending flag is false (so
situation (a) does not apply), yet reading-scoped appendToNotes raises: the
matched rule's payload assertion fails.  The claim's "exactly these
situations" is therefore false as stated. -/
theorem c4_counterexample :
    readingAppendToNotes c4Kanji "⇔！" = Except.error PyErr.assertionError ∧
    c4Kanji.pending_note = false ∧
    (arrowMatch "⇔！".data).isSome = true := by
  refine ⟨by rfl, by rfl, by rfl⟩

/-- C4 (amended): on a state with at least two readings and a line outside
the hardcoded special-case set, reading-scoped appendToNotes results in an
unrecoverable error propagated to the caller in exactly these situations:
(a) the broken-continuation case — no earlier generic rule matched, the
pending flag is true, the line ends in the sentence-final marker, and
neither the current reading's notes nor the second-to-last reading's notes
is non-empty; (b) no reading-scoped rule matches the line, in which case the
error carries the offending raw line (and no state is produced, so the line
is neither dropped silently nor stored); and additionally (c) the ⇔
alternate-orthography rule matches but its payload fails the asserted
kanji/hiragana/comma character-class check. -/
theorem c4_error_characterization (K : Kanji) (s : String)
    (hlen : 2 ≤ K.readings.length) (hhard : s ∉ hardcodedNoteLines) :
    ∀ e : PyErr, (readingAppendToNotes K s = Except.error e ↔
      ((arrowAssertViolationB s = true ∧ e = PyErr.assertionError) ∨
       (brokenContinuationB K s = true ∧ e = PyErr.valueError attachFailMsg) ∨
       (noReadingRuleB K s = true ∧ e = PyErr.runtimeError s))) := by
  intro e
  simp only [hardcodedNoteLines, List.mem_cons, List.not_mem_nil, or_false, not_or] at hhard
  obtain ⟨h1, h2, h3, h4, h5, h6⟩ := hhard
  obtain ⟨r2, hr2⟩ := secondLast_of_two_le hlen
  unfold readingAppendToNotes
  rw [if_neg h1, if_neg h2, if_neg h3, if_neg h4, if_neg h5, if_neg h6]
  unfold readingNotesRules arrowAssertViolationB brokenContinuationB noReadingRuleB
  cases harr : arrowMatch s.data with
  | some m1 =>
      simp only [harr]
      by_cases hok : arrowPayloadOk m1 = true
      · simp [hok]
      · have hok2 : arrowPayloadOk m1 = false := by
          cases hx : arrowPayloadOk m1
          · rfl
          · exact absurd hx hok
        simp [hok2, eq_comm]
  | none =>
      simp only [harr, Option.isNone_none, Bool.true_and]
      by_cases h8 : rgxTest pat8 s.data = true
      · simp [h8]
      · replace h8 : rgxTest pat8 s.data = false := by
          cases hx : rgxTest pat8 s.data
          · rfl
          · exact absurd hx h8
        by_cases h9 : rgxTest pat9 s.data = true
        · simp [h8, h9]
        · replace h9 : rgxTest pat9 s.data = false := by
            cases hx : rgxTest pat9 s.data
            · rfl
            · exact absurd hx h9
          by_cases hpd : (K.pending_note && pyEndsWith s "。") = true
          · by_cases hn : (lastReading K).notes ≠ ""
            · simp [h8, h9, hpd, hn]
            · have hn2 : (lastReading K).notes = "" := by
                by_cases hx : (lastReading K).notes = ""
                · exact hx
                · exact absurd hx hn
              rw [hr2]
              by_cases hrn : r2.notes ≠ ""
              · simp [h8, h9, hpd, hn, hrn, hn2, hr2]
              · have hrn2 : r2.notes = "" := by
                  by_cases hx : r2.notes = ""
                  · exact hx
                  · exact absurd hx hrn
                simp [h8, h9, hpd, hn2, hrn2, hr2, eq_comm]
          · have hpd2 : (K.pending_note && pyEndsWith s "。") = false := by
              cases hx : (K.pending_note && pyEndsWith s "。")
              · rfl
              · exact absurd hx hpd
            by_cases h11 : rgxTest pat11 s.data = true
            · simp [h8, h9, hpd2, h11]
            · replace h11 : rgxTest pat11 s.data = false := by
                cases hx : rgxTest pat11 s.data
                · rfl
                · exact absurd hx h11
              by_cases h12 : rgxTest pat12 s.data = true
              · simp [h8, h9, hpd2, h11, h12]
              · replace h12 : rgxTest pat12 s.data = false := by
                  cases hx : rgxTest pat12 s.data
                  · rfl
                  · exact absurd hx h12
                by_cases h13 : rgxTest pat13 s.data = true
                · simp [h8, h9, hpd2, h11, h12, h13]
                · replace h13 : rgxTest pat13 s.data = false := by
                    cases hx : rgxTest pat13 s.data
                    · rfl
                    · exact absurd hx h13
                  by_cases h14 : pyEndsWith s "」になる。" = true
                  · simp [h8, h9, hpd2, h11, h12, h13, h14]
                  · replace h14 : pyEndsWith s "」になる。" = false := by
                      cases hx : pyEndsWith s "」になる。"
                      · rfl
                      · exact absurd hx h14
                    simp [h8, h9, hpd2, h11, h12, h13, h14, eq_comm]

theorem c4_witness :
    2 ≤ c4Kanji.readings.length ∧ "あ" ∉ hardcodedNoteLines ∧
    readingAppendToNotes c4Kanji "あ" = Except.error (PyErr.runtimeError "あ") :=
  ⟨by decide, by decide,
   (c4_error_characterization c4Kanji "あ" (by decide) (by decide)
     (PyErr.runtimeError "あ")).mpr (Or.inr (Or.inr ⟨by rfl, rfl⟩))⟩

/-- The `「`-stripping / popularization / splitting pipeline of add_examples
applied to one raw examples string. -/
def exsOf (s : String) : List String :=
  (pySplit '，' (popularize
    (if s.data.contains '「' then String.mk (removeMarks s.data) else s))).filter
    (fun x => x ≠ "")

def plainExampleStr (e : String) : Bool :=
  decide (e ≠ "") && !(e.data.contains '，') && !(e.data.contains '「') &&
  (glossMatch e).isNone && decide (popularize e = e) &&
  !(subSearch "〔副〕".data e.data) && !(subSearch "〔接〕".data e.data) &&
  !(listStartsWith e.data "……".data)

lemma splitOnChar_no_sep {sep : Char} :
    ∀ l : List Char, sep ∉ l → splitOnChar sep l = [l] := by
  intro l
  induction l with
  | nil => intro _; rfl
  | cons c t ih =>
      intro h
      have hc : c ≠ sep := fun hx => h (by rw [← hx]; exact List.mem_cons_self _ _)
      have ht := ih (fun hx => h (List.mem_cons_of_mem _ hx))
      rw [splitOnChar]
      simp only [ht, if_neg (fun hx => hc hx)]

lemma plain_parts (e : String) (h : plainExampleStr e = true) :
    (e ≠ "" ∧ e.data.contains '，' = false) ∧
    (e.data.contains '「' = false ∧ (glossMatch e) = none) ∧
    (popularize e = e ∧ subSearch "〔副〕".data e.data = false) ∧
    (subSearch "〔接〕".data e.data = false ∧ listStartsWith e.data "……".data = false) := by
  unfold plainExampleStr at h
  simp only [Bool.and_eq_true, Bool.not_eq_true', decide_eq_true_eq,
    Option.isNone_iff_eq_none] at h
  exact ⟨⟨h.1.1.1.1.1.1.1, h.1.1.1.1.1.1.2⟩, ⟨h.1.1.1.1.1.2, h.1.1.1.1.2⟩,
    ⟨h.1.1.1.2, h.1.1.2⟩, ⟨h.1.2, h.2⟩⟩

lemma contains_false_not_mem {l : List Char} {c : Char}
    (h : l.contains c = false) : c ∉ l := by
  intro hm
  have hx : l.contains c = true := List.elem_iff.mpr hm
  rw [h] at hx
  exact Bool.false_ne_true hx

lemma exsOf_plain {e : String} (h : plainExampleStr e = true) : exsOf e = [e] := by
  obtain ⟨⟨hne, hsep⟩, ⟨hquo, _⟩, ⟨hpop, _⟩, _⟩ := plain_parts e h
  have hsep2 : '，' ∉ e.data := contains_false_not_mem hsep
  unfold exsOf
  rw [hquo]
  simp only [Bool.false_eq_true, if_false]
  rw [hpop]
  unfold pySplit
  rw [splitOnChar_no_sep e.data hsep2]
  simp [strMk_data, hne]

lemma mkExample_plain {e : String} (h : plainExampleStr e = true) :
    mkExample e = ⟨e, none, false⟩ := by
  obtain ⟨_, _, ⟨_, h1⟩, ⟨h2, h3⟩⟩ := plain_parts e h
  unfold mkExample
  rw [h1, h2, h3]
  rfl

lemma filter_ne_of_not_mem {l : List Char} {c0 : Char} (h : c0 ∉ l) :
    l.filter (fun ch => ch ≠ c0) = l := by
  induction l with
  | nil => rfl
  | cons a t ih =>
      have ha : a ≠ c0 := fun hx => h (by rw [← hx]; exact List.mem_cons_self _ _)
      rw [List.filter_cons, if_pos (decide_eq_true ha),
        ih (fun hx => h (List.mem_cons_of_mem _ hx))]

lemma getLastD_concat2 (rs : List Reading) (R : Reading) :
    ∀ d : Reading, (rs ++ [R]).getLastD d = R := by
  induction rs with
  | nil => intro d; rfl
  | cons a t ih =>
      intro d
      rw [List.cons_append, List.getLastD_cons]
      exact ih a

lemma lastReading_mk (c : String) (rs : List Reading) (R : Reading)
    (pr cr : List (String × String)) (kn : String) (pn : Bool) (jd : Option String) :
    lastReading ⟨c, rs ++ [R], pr, cr, kn, pn, jd⟩ = R := by
  unfold lastReading
  exact getLastD_concat2 rs R defaultReading

lemma setLast_mk (c : String) (rs : List Reading) (R : Reading)
    (pr cr : List (String × String)) (kn : String) (pn : Bool) (jd : Option String)
    (f : Reading → Reading) :
    setLast ⟨c, rs ++ [R], pr, cr, kn, pn, jd⟩ f = ⟨c, rs ++ [f R], pr, cr, kn, pn, jd⟩ := by
  unfold setLast
  rw [lastReading_mk]
  simp [List.dropLast_concat]

lemma swapLastTwo_mk (c : String) (rs : List Reading) (A B : Reading)
    (pr cr : List (String × String)) (kn : String) (pn : Bool) (jd : Option String) :
    swapLastTwo ⟨c, rs ++ [A, B], pr, cr, kn, pn, jd⟩ = ⟨c, rs ++ [B, A], pr, cr, kn, pn, jd⟩ := by
  unfold swapLastTwo
  have hrev : (rs ++ [A, B]).reverse = B :: A :: rs.reverse := by
    simp
  rw [hrev]
  simp

lemma kanjiAddReading_mk (c : String) (rl : List Reading)
    (pr cr : List (String × String)) (kn : String) (pn : Bool) (jd : Option String)
    (r0 : String) (vo : Option String) (kd : Option String) :
    kanjiAddReading ⟨c, rl, pr, cr, kn, pn, jd⟩ r0 vo kd =
      ⟨c, rl ++ [mkReading r0 vo kd], pr, cr, kn, pn, jd⟩ := rfl

lemma delimitFrom_shape (c r ex : String) : ∀ l : List String,
    delimitFrom c r l ex = r ∨
    ∃ suf, suf ∈ l ∧ delimitFrom c r l ex =
      String.mk (r.data.take (r.data.length - suf.data.length)) ++ "." ++ suf := by
  intro l
  induction l with
  | nil => exact Or.inl rfl
  | cons a t ih =>
      rw [delimitFrom]
      by_cases hh : suffixProbeHit c r a ex = true
      · rw [if_pos hh]
        exact Or.inr ⟨a, by simp, rfl⟩
      · rw [if_neg hh]
        cases ih with
        | inl h0 => exact Or.inl h0
        | inr h0 =>
            obtain ⟨suf, hm, he⟩ := h0
            exact Or.inr ⟨suf, by simp [hm], he⟩

lemma delimit_shape (c r ex : String) :
    delimit_okurigana c r ex = r ∨
    ∃ i, i < r.data.length ∧ delimit_okurigana c r ex =
      String.mk (r.data.take i) ++ "." ++ String.mk (r.data.drop i) := by
  unfold delimit_okurigana
  by_cases hek : ex = c
  · rw [if_pos hek]; exact Or.inl rfl
  · rw [if_neg hek]
    cases delimitFrom_shape c r ex (all_suffixes r) with
    | inl h0 => exact Or.inl h0
    | inr h0 =>
        obtain ⟨suf, hm, he⟩ := h0
        rw [all_suffixes, List.mem_map] at hm
        obtain ⟨i, hi, rfl⟩ := hm
        have hi2 : i < r.data.length := List.mem_range.mp hi
        refine Or.inr ⟨i, hi2, ?_⟩
        rw [he]
        have hlen : (String.mk (r.data.drop i)).data.length = r.data.length - i := by
          simp
        rw [hlen, Nat.sub_sub_self (Nat.le_of_lt hi2)]

lemma strAppend_data (a b : String) : (a ++ b).data = a.data ++ b.data := rfl

lemma delimit_clean_restore {c r ex : String}
    (hdot : '.' ∉ r.data)
    (hd : (delimit_okurigana c r ex).data.contains '.' = true) :
    (delimit_okurigana c r ex).data.filter (fun ch => ch ≠ '.') = r.data := by
  cases delimit_shape c r ex with
  | inl h0 =>
      rw [h0] at hd
      exact absurd (List.elem_iff.mp hd) hdot
  | inr h0 =>
      obtain ⟨i, hi, he⟩ := h0
      rw [he, strAppend_data, strAppend_data]
      have h1 : (String.mk (r.data.take i)).data = r.data.take i := rfl
      have h2 : (String.mk (r.data.drop i)).data = r.data.drop i := rfl
      have h3 : ("." : String).data = ['.'] := rfl
      rw [h1, h2, h3, List.filter_append, List.filter_append]
      rw [filter_ne_of_not_mem (fun hm => hdot (List.take_subset i r.data hm))]
      rw [filter_ne_of_not_mem (fun hm => hdot (List.drop_subset i r.data hm))]
      have h4 : (['.'] : List Char).filter (fun ch => ch ≠ '.') = [] := rfl
      rw [h4, List.append_nil, List.take_append_drop]

lemma delimit_dotted_ne {c r ex : String}
    (hdot : '.' ∉ r.data)
    (hd : (delimit_okurigana c r ex).data.contains '.' = true) :
    delimit_okurigana c r ex ≠ r := by
  intro heq
  rw [heq] at hd
  exact hdot (List.elem_iff.mp hd)

/-- The kana a fresh Kun reading ends up with once its first example is
attached (model.py 574-577): the computed split when it is dotted, else the
reading unchanged. -/
def firstSplit (c base e : String) : String :=
  if (delimit_okurigana c base e).data.contains '.' then delimit_okurigana c base e else base

lemma addExamplesFuel_step (f : Nat) (K : Kanji) (s : String) :
    addExamplesFuel (f + 1) K s =
      (if (lastReading (exampleLoop f K (exsOf s))).kind = "Kun" then
        kunLoop f (exampleLoop f K (exsOf s))
          (String.mk ((lastReading (exampleLoop f K (exsOf s))).reading.data.filter
            (fun ch => ch ≠ '.'))) 0
       else exampleLoop f K (exsOf s)) := rfl

lemma exampleLoop_step_nil (f : Nat) (K : Kanji) : exampleLoop (f + 1) K [] = K := rfl

lemma exampleLoop_step_cons (f : Nat) (K : Kanji) (ex : String) (rest : List String) :
    exampleLoop (f + 1) K (ex :: rest) =
      exampleLoop f
        (match glossMatch ex with
         | some (text, gloss0) =>
             swapLastTwo (addExamplesFuel f
               (kanjiAddReading K (if gloss0.data.contains 'っ' then truncAtTsu gloss0 else gloss0)
                 (some (lastReading K).reading) none) text)
         | none => setLast K (fun r => { r with examples := r.examples ++ [mkExample ex] })) rest := rfl

lemma exampleLoop_step_plain (f : Nat) (K : Kanji) (ex : String) (rest : List String)
    (hgm : glossMatch ex = none) :
    exampleLoop (f + 1) K (ex :: rest) =
      exampleLoop f (setLast K (fun r => { r with examples := r.examples ++ [mkExample ex] })) rest := by
  rw [exampleLoop_step_cons, hgm]

lemma kunLoop_step (f : Nat) (K : Kanji) (clean : String) (i : Nat) :
    kunLoop (f + 1) K clean i =
      (if i < (lastReading K).examples.length then
        (if (delimit_okurigana K.kanji clean
              ((lastReading K).examples.getD i ⟨"", none, false⟩).ex).data.contains '.' then
          if clean = (lastReading K).reading then
            kunLoop f (setLast K (fun r => { r with reading := delimit_okurigana K.kanji clean ((lastReading K).examples.getD i ⟨"", none, false⟩).ex })) clean (i + 1)
          else if (lastReading K).reading ≠ delimit_okurigana K.kanji clean
              ((lastReading K).examples.getD i ⟨"", none, false⟩).ex then
            kunLoop f
              (swapLastTwo (addExamplesFuel f
                (kanjiAddReading (setLast K (fun r => { r with examples := r.examples.eraseIdx i }))
                  (if ((lastReading K).examples.getD i ⟨"", none, false⟩).ex = "恐らく"
                   then ("おそらく", some "おそ.れる") else (clean, none)).1
                  (if ((lastReading K).examples.getD i ⟨"", none, false⟩).ex = "恐らく"
                   then ("おそらく", some "おそ.れる") else (clean, none)).2
                  none)
                ((lastReading K).examples.getD i ⟨"", none, false⟩).ex))
              (if ((lastReading K).examples.getD i ⟨"", none, false⟩).ex = "恐らく"
               then ("おそらく", some "おそ.れる") else (clean, none)).1
              (i + 1)
          else kunLoop f K clean (i + 1)
        else kunLoop f K clean (i + 1))
      else K) := rfl

lemma kunLoop_done (f : Nat) (K : Kanji) (clean : String) (i : Nat)
    (h : ¬ i < (lastReading K).examples.length) :
    kunLoop (f + 1) K clean i = K := by
  rw [kunLoop_step, if_neg h]

lemma addExamples_single_plain
    (f : Nat) (c : String) (rs : List Reading) (R : Reading) (e : String)
    (pr cr : List (String × String)) (kn : String) (pn : Bool) (jd : Option String)
    (hkind : R.kind = "Kun") (hex : R.examples = [])
    (hdot : '.' ∉ R.reading.data)
    (hpl : plainExampleStr e = true) :
    addExamplesFuel (f + 4) ⟨c, rs ++ [R], pr, cr, kn, pn, jd⟩ e =
      ⟨c, rs ++
        [{ R with
            reading := firstSplit c R.reading e,
            examples := [⟨e, none, false⟩] }],
        pr, cr, kn, pn, jd⟩ := by
  have h4 : f + 4 = (f + 3) + 1 := rfl
  have h3 : f + 3 = (f + 2) + 1 := rfl
  have h2 : f + 2 = (f + 1) + 1 := rfl
  obtain ⟨⟨hne, _⟩, ⟨_, hgm⟩, _, _⟩ := plain_parts e hpl
  have hload : exampleLoop (f + 3) ⟨c, rs ++ [R], pr, cr, kn, pn, jd⟩ [e] =
      ⟨c, rs ++ [{ R with examples := [⟨e, none, false⟩] }], pr, cr, kn, pn, jd⟩ := by
    rw [h3, exampleLoop_step_plain _ _ _ _ hgm, setLast_mk, h2, exampleLoop_step_nil]
    simp [hex, mkExample_plain hpl]
  rw [h4, addExamplesFuel_step, exsOf_plain hpl, hload, lastReading_mk]
  have hkind2 : ({ R with examples := [(⟨e, none, false⟩ : Example)] } : Reading).kind = "Kun" := hkind
  rw [if_pos hkind2]
  have hclean : String.mk (({ R with examples := [(⟨e, none, false⟩ : Example)] } : Reading).reading.data.filter
      (fun ch => ch ≠ '.')) = R.reading := by
    show String.mk (R.reading.data.filter (fun ch => ch ≠ '.')) = R.reading
    rw [filter_ne_of_not_mem hdot, strMk_data]
  rw [hclean]
  rw [h3, kunLoop_step]
  have h0 : 0 < (lastReading (⟨c, rs ++
      [{ R with examples := [(⟨e, none, false⟩ : Example)] }],
      pr, cr, kn, pn, jd⟩ : Kanji)).examples.length := by
    rw [lastReading_mk]
    simp
  rw [if_pos h0]
  simp only [lastReading_mk, List.getD_cons_zero]
  cases hsplit : (delimit_okurigana c R.reading e).data.contains '.' with
  | true =>
      simp only [hsplit, if_true]
      rw [setLast_mk]
      rw [h2, kunLoop_done _ _ _ _ (by rw [lastReading_mk]; simp)]
      simp only [firstSplit]
      rw [if_pos hsplit]
  | false =>
      simp only [hsplit, Bool.false_eq_true, if_false]
      rw [h2, kunLoop_done _ _ _ _ (by rw [lastReading_mk]; simp)]
      simp only [firstSplit]
      rw [if_neg (by rw [hsplit]; exact Bool.false_ne_true)]

lemma filter_dot_ne_self {l : List Char} (h : l.contains '.' = true) :
    l.filter (fun ch => ch ≠ '.') ≠ l := by
  intro heq
  have hm : '.' ∈ l := List.elem_iff.mp h
  rw [← heq] at hm
  have := List.of_mem_filter hm
  simp at this

lemma mkReading_plain (r0 : String) (vo : Option String)
    (hsp : r0.data.head? ≠ some '　') (hkata : startsKatakana r0 = false) :
    mkReading r0 vo none = ⟨r0, false, "Kun", vo, "", [], []⟩ := by
  unfold mkReading
  rw [if_neg hsp]
  simp [hkata]

lemma addExamples_conflict
    (f : Nat) (c : String) (rs : List Reading) (R1 : Reading) (e1 e2 rcln cnew : String)
    (vnew : Option String)
    (pr cr : List (String × String)) (kn : String) (pn : Bool) (jd : Option String)
    (hkind : R1.kind = "Kun")
    (hex1 : R1.examples = [⟨e1, none, false⟩])
    (hrc : String.mk (R1.reading.data.filter (fun ch => ch ≠ '.')) = rcln)
    (hd1dot : R1.reading.data.contains '.' = true)
    (hd1 : delimit_okurigana c rcln e1 = R1.reading)
    (hd2dot : (delimit_okurigana c rcln e2).data.contains '.' = true)
    (hneq : delimit_okurigana c rcln e2 ≠ R1.reading)
    (hpl2 : plainExampleStr e2 = true)
    (hcv : (if e2 = "恐らく" then (("おそらく" : String), (some "おそ.れる" : Option String))
            else (rcln, none)) = (cnew, vnew))
    (hkata : startsKatakana cnew = false)
    (hsp : cnew.data.head? ≠ some '　')
    (hdotn : '.' ∉ cnew.data) :
    addExamplesFuel (f + 10) ⟨c, rs ++ [R1], pr, cr, kn, pn, jd⟩ e2 =
      ⟨c, rs ++
        [{ reading := firstSplit c cnew e2, uncommon := false, kind := "Kun",
           variation_of := vnew, notes := "", examples := [⟨e2, none, false⟩],
           alternate_orthographies := [] },
         R1],
        pr, cr, kn, pn, jd⟩ := by
  have h10 : f + 10 = (f + 9) + 1 := rfl
  have h9 : f + 9 = (f + 8) + 1 := rfl
  have h8 : f + 8 = (f + 7) + 1 := rfl
  have h74 : f + 7 = (f + 3) + 4 := rfl
  have h61 : f + 3 + 4 = (f + 6) + 1 := rfl
  have hne0 : rcln ≠ R1.reading := by
    rw [← hrc]
    intro heq
    have : R1.reading.data.filter (fun ch => ch ≠ '.') = R1.reading.data := by
      have := congrArg String.data heq
      simpa using this
    exact filter_dot_ne_self hd1dot this
  obtain ⟨⟨hne2, _⟩, ⟨_, hgm2⟩, _, _⟩ := plain_parts e2 hpl2
  have hload : exampleLoop (f + 9) ⟨c, rs ++ [R1], pr, cr, kn, pn, jd⟩ [e2] =
      ⟨c, rs ++
        [{ R1 with
            examples := [⟨e1, none, false⟩, ⟨e2, none, false⟩] }],
        pr, cr, kn, pn, jd⟩ := by
    rw [h9, exampleLoop_step_plain _ _ _ _ hgm2, setLast_mk, h8, exampleLoop_step_nil]
    simp [hex1, mkExample_plain hpl2]
  rw [h10, addExamplesFuel_step, exsOf_plain hpl2, hload, lastReading_mk]
  have hkind2 : ({ R1 with
      examples := [(⟨e1, none, false⟩ : Example), ⟨e2, none, false⟩] } : Reading).kind = "Kun" := hkind
  rw [if_pos hkind2]
  have hclean : String.mk (({ R1 with
      examples := [(⟨e1, none, false⟩ : Example), ⟨e2, none, false⟩] } : Reading).reading.data.filter
      (fun ch => ch ≠ '.')) = rcln := hrc
  rw [hclean]
  rw [h9, kunLoop_step]
  have h0 : 0 < (lastReading (⟨c, rs ++
      [{ R1 with
          examples := [(⟨e1, none, false⟩ : Example), ⟨e2, none, false⟩] }],
      pr, cr, kn, pn, jd⟩ : Kanji)).examples.length := by
    rw [lastReading_mk]
    simp
  rw [if_pos h0]
  simp only [lastReading_mk, List.getD_cons_zero]
  rw [hd1, hd1dot]
  rw [if_pos rfl, if_neg hne0, if_neg (show ¬ R1.reading ≠ R1.reading from fun hx => hx rfl)]
  rw [h8, kunLoop_step]
  have h1 : 0 + 1 < (lastReading (⟨c, rs ++
      [{ R1 with
          examples := [(⟨e1, none, false⟩ : Example), ⟨e2, none, false⟩] }],
      pr, cr, kn, pn, jd⟩ : Kanji)).examples.length := by
    rw [lastReading_mk]
    simp
  rw [if_pos h1]
  simp only [lastReading_mk, List.getD_cons_succ, List.getD_cons_zero]
  rw [hd2dot]
  rw [if_pos rfl, if_neg hne0, if_pos (Ne.symm hneq)]
  rw [setLast_mk, hcv]
  simp only []
  have herase : ([{ ex := e1, pos := none, literary := false },
      { ex := e2, pos := none, literary := false }] : List Example).eraseIdx (0 + 1)
      = [{ ex := e1, pos := none, literary := false }] := rfl
  rw [herase, ← hex1]
  have heta : Reading.mk R1.reading R1.uncommon R1.kind R1.variation_of R1.notes
      R1.examples R1.alternate_orthographies = R1 := rfl
  rw [heta]
  rw [kanjiAddReading_mk, mkReading_plain cnew vnew hsp hkata]
  rw [h74]
  rw [addExamples_single_plain (f + 3) c (rs ++ [R1])
    ⟨cnew, false, "Kun", vnew, "", [], []⟩ e2 pr cr kn pn jd rfl rfl hdotn hpl2]
  have hl1 : ∀ A B : Reading, rs ++ [A] ++ [B] = rs ++ [A, B] := by
    intro A B
    simp
  have hl2 : ∀ A B : Reading, rs ++ [A, B] = (rs ++ [A]) ++ [B] := by
    intro A B
    simp
  rw [hl1, swapLastTwo_mk, hl2]
  have h61 : f + 3 + 4 = (f + 6) + 1 := rfl
  rw [h61, kunLoop_done _ _ _ _ (by rw [lastReading_mk, hex1]; simp)]

/-- C2: on any Kanji whose current (last) reading is a fresh Kun reading with
an undotted root, feeding two plain single examples through successive
`Kanji.add_examples` calls whose computed okurigana splits are both proper
splits yet disagree makes the second example detach from the original
reading and spawn a new Reading placed immediately before it: the new
reading is rooted at the undelimited kana (the hardcoded 恐らく case gets
root おそらく and variant label おそ.れる, every other case keeps the
original root unlabelled), carries exactly the disputed example, and its
stored reading re-delimits that root (its undotted form is the root); the
original reading keeps its first-recorded split and only its first example. -/
theorem c2_conflicting_split_spawns_variant
    (c : String) (rs : List Reading) (R0 : Reading) (e1 e2 cnew : String)
    (vnew : Option String)
    (pr cr : List (String × String)) (kn : String) (pn : Bool) (jd : Option String)
    (hkind : R0.kind = "Kun") (hex0 : R0.examples = [])
    (hdot0 : '.' ∉ R0.reading.data)
    (hpl1 : plainExampleStr e1 = true) (hpl2 : plainExampleStr e2 = true)
    (hd1 : (delimit_okurigana c R0.reading e1).data.contains '.' = true)
    (hd2 : (delimit_okurigana c R0.reading e2).data.contains '.' = true)
    (hneq : delimit_okurigana c R0.reading e2 ≠ delimit_okurigana c R0.reading e1)
    (hcv : (if e2 = "恐らく" then (("おそらく" : String), (some "おそ.れる" : Option String))
            else (R0.reading, none)) = (cnew, vnew))
    (hkata : startsKatakana cnew = false)
    (hsp : cnew.data.head? ≠ some '　')
    (hdotn : '.' ∉ cnew.data) :
    Kanji.add_examples (Kanji.add_examples ⟨c, rs ++ [R0], pr, cr, kn, pn, jd⟩ e1) e2 =
      ⟨c, rs ++
        [{ reading := firstSplit c cnew e2, uncommon := false, kind := "Kun",
           variation_of := vnew, notes := "", examples := [⟨e2, none, false⟩],
           alternate_orthographies := [] },
         { R0 with
             reading := delimit_okurigana c R0.reading e1,
             examples := [⟨e1, none, false⟩] }],
        pr, cr, kn, pn, jd⟩
      ∧ (firstSplit c cnew e2).data.filter (fun ch => ch ≠ '.') = cnew.data := by
  have hfs1 : firstSplit c R0.reading e1 = delimit_okurigana c R0.reading e1 := by
    unfold firstSplit
    rw [if_pos hd1]
  have hf1 : addExFuel ⟨c, rs ++ [R0], pr, cr, kn, pn, jd⟩ e1
      = (4 * e1.data.length + 60) + 4 := by
    unfold addExFuel
    rw [lastReading_mk, hex0]
    simp only [List.foldl]
  have hstep1 : Kanji.add_examples ⟨c, rs ++ [R0], pr, cr, kn, pn, jd⟩ e1
      = ⟨c, rs ++
        [{ R0 with
            reading := firstSplit c R0.reading e1,
            examples := [⟨e1, none, false⟩] }],
        pr, cr, kn, pn, jd⟩ := by
    unfold Kanji.add_examples
    rw [hf1]
    exact addExamples_single_plain _ c rs R0 e1 pr cr kn pn jd hkind hex0 hdot0 hpl1
  have hrc : String.mk (((firstSplit c R0.reading e1).data).filter (fun ch => ch ≠ '.'))
      = R0.reading := by
    rw [hfs1, delimit_clean_restore hdot0 hd1]
  have hd1dot : (firstSplit c R0.reading e1).data.contains '.' = true := by
    rw [hfs1]
    exact hd1
  have hneq2 : delimit_okurigana c R0.reading e2 ≠ firstSplit c R0.reading e1 := by
    rw [hfs1]
    exact hneq
  have hf2 : addExFuel ⟨c, rs ++
      [{ R0 with
          reading := firstSplit c R0.reading e1,
          examples := [⟨e1, none, false⟩] }],
      pr, cr, kn, pn, jd⟩ e2
      = (4 * e2.data.length + 4 * e1.data.length + 62) + 10 := by
    unfold addExFuel
    rw [lastReading_mk]
    simp only [List.foldl]
    omega
  constructor
  · rw [hstep1]
    unfold Kanji.add_examples
    rw [hf2]
    rw [addExamples_conflict (4 * e2.data.length + 4 * e1.data.length + 62) c rs
      { R0 with
          reading := firstSplit c R0.reading e1,
          examples := [⟨e1, none, false⟩] }
      e1 e2 R0.reading cnew vnew pr cr kn pn jd hkind rfl hrc hd1dot hfs1.symm
      hd2 hneq2 hpl2 hcv hkata hsp hdotn]
    rw [hfs1]
  · unfold firstSplit
    cases hsp2 : (delimit_okurigana c cnew e2).data.contains '.' with
    | true =>
        rw [if_pos rfl]
        exact delimit_clean_restore hdotn hsp2
    | false =>
        rw [if_neg (show ¬ (false = true) from Bool.false_ne_true)]
        rw [List.filter_eq_self]
        intro a ha
        simp only [ne_eq, decide_eq_true_eq]
        intro hxa
        exact hdotn (hxa ▸ ha)

/-- Concrete instantiation: 恐 with fresh Kun reading おそれる; 恐れる splits
as おそ.れる, 恐らく splits as おそれ.る, conflicting; the hardcoded branch
spawns the おそ.らく variant labelled おそ.れる. -/
theorem c2_witness :
    plainExampleStr "恐れる" = true ∧
    plainExampleStr "恐らく" = true ∧
    (delimit_okurigana "恐" "おそれる" "恐れる").data.contains '.' = true ∧
    delimit_okurigana "恐" "おそれる" "恐らく" ≠ delimit_okurigana "恐" "おそれる" "恐れる" ∧
    Kanji.add_examples (Kanji.add_examples
        ⟨"恐", [⟨"おそれる", false, "Kun", none, "", [], []⟩], [], [], "", false, none⟩
        "恐れる") "恐らく" =
      ⟨"恐",
        [⟨"おそ.らく", false, "Kun", some "おそ.れる", "", [⟨"恐らく", none, false⟩], []⟩,
         ⟨"おそ.れる", false, "Kun", none, "", [⟨"恐れる", none, false⟩], []⟩],
        [], [], "", false, none⟩ := by
  refine ⟨by rfl, by rfl, by rfl, by decide, ?_⟩
  have h := c2_conflicting_split_spawns_variant "恐" []
    ⟨"おそれる", false, "Kun", none, "", [], []⟩ "恐れる" "恐らく" "おそらく"
    (some "おそ.れる") [] [] "" false none rfl rfl (by decide) (by rfl) (by rfl)
    (by rfl) (by rfl) (by decide) rfl (by rfl) (by decide) (by decide)
  have h1 := h.1
  simpa using h1
